import Mathlib

/-!
Shallow embedding of the NEXUS "AI Life OS" core pipeline
(analysis engine, proactive rule engine, query/retrieval engine,
database and inference-client services) together with proofs about the
behaviour its specification describes.

Conventions of the embedding:
* Python dicts holding JSON-shaped data are association lists over `String`
  keys with `JVal` values; `alistSet` has Python-dict semantics (update the
  existing entry in place, otherwise append).
* Clock instants are rationals (seconds); SQL `DATETIME` columns hold
  ISO-8601 text whose lexicographic order is chronological, modelled by a
  natural-number timestamp key.
* Fallible Python code is embedded with `Except`; an uncaught exception is
  an `Except.error`.
* The external inference service (Gemini) is a parameter: its possible
  behaviours are enumerated by small outcome types.
-/

namespace Nexus

/-! ### Generic association lists (model of Python `dict`) -/

section AList

variable {κ : Type _} {α : Type _} [DecidableEq κ]

/-- `d.get(k)` on a Python dict. -/
def alistGet : List (κ × α) → κ → Option α
  | [], _ => none
  | (k1, v1) :: t, k => if k1 = k then some v1 else alistGet t k

/-- `d.get(k, dflt)` on a Python dict. -/
def alistGetD (m : List (κ × α)) (k : κ) (dflt : α) : α :=
  (alistGet m k).getD dflt

/-- `k in d` on a Python dict. -/
def alistHas (m : List (κ × α)) (k : κ) : Bool :=
  (alistGet m k).isSome

/-- `d[k] = v` on a Python dict: update in place if the key exists,
otherwise append (dicts preserve insertion order). -/
def alistSet : List (κ × α) → κ → α → List (κ × α)
  | [], k, v => [(k, v)]
  | (k1, v1) :: t, k, v => if k1 = k then (k, v) :: t else (k1, v1) :: alistSet t k v

end AList

/-! ### String helpers (Python `in`, SQL `LIKE`, `str.split`, `str.isdigit`) -/

/-- Is `pat` a contiguous substring of `hay` (Python `pat in hay`)? -/
def strContainsCL (pat : List Char) : List Char → Bool
  | [] => pat.isEmpty
  | c :: t => List.isPrefixOf pat (c :: t) || strContainsCL pat t

/-- Python `pat in hay` on strings. -/
def strContains (hay pat : String) : Bool :=
  strContainsCL pat.toList hay.toList

/-- `s.lower()` (ASCII case folding, character by character). -/
def pyLower (s : String) : String :=
  String.mk (s.toList.map Char.toLower)

/-- SQLite `col LIKE '%pat%'`: substring match, ASCII case-insensitive. -/
def likeContains (hay pat : String) : Bool :=
  strContains (pyLower hay) (pyLower pat)

/-- Python `s.isdigit()` (restricted to ASCII digits). -/
def isDigitStr (s : String) : Bool :=
  !s.isEmpty && s.toList.all Char.isDigit

/-- `int(s)` for an all-digit string. -/
def strToNat (s : String) : Nat :=
  s.toList.foldl (fun n c => n * 10 + (c.toNat - 48)) 0

/-- Helper of `pySplitWs`: collect maximal non-whitespace runs
(`acc` holds the current run, reversed). -/
def splitWsGo (acc : List Char) : List Char → List (List Char)
  | [] => if acc.isEmpty then [] else [acc.reverse]
  | c :: t =>
    if c.isWhitespace then
      if acc.isEmpty then splitWsGo [] t else acc.reverse :: splitWsGo [] t
    else splitWsGo (c :: acc) t

/-- Python `s.split()` with no separator: maximal whitespace runs
delimit, empty tokens never occur. -/
def pySplitWs (s : String) : List String :=
  (splitWsGo [] s.toList).map String.mk

/-! ### JSON-shaped Python values (`src/services/gemini_client.py`) -/

/-- A JSON value as produced by `json.loads` and passed around as Python
data (`None`, `bool`, `str`, `int`, list, object). -/
inductive JVal where
  | null
  | bool (b : Bool)
  | str (s : String)
  | int (n : Int)
  | arr (l : List JVal)
  | obj (l : List (String × JVal))

/-- A Python dict with string keys holding JSON-shaped values. -/
abbrev Dict := List (String × JVal)

/-- Python truthiness of a JSON-shaped value. -/
def pyTruthy : JVal → Bool
  | .null => false
  | .bool b => b
  | .str s => !s.isEmpty
  | .int n => n != 0
  | .arr l => !l.isEmpty
  | .obj l => !l.isEmpty

/-- `isinstance(v, bool)`. -/
def isBool : JVal → Bool
  | .bool _ => true
  | _ => false

/-- `isinstance(v, list)`. -/
def isList : JVal → Bool
  | .arr _ => true
  | _ => false

/-- `str(v).lower() == 'true'`: only a string whose lowercase form is
`"true"` satisfies this; `str()` of `None`/numbers/lists/dicts never
lowercases to `"true"`, and `str(True) = "True"` is only reachable for
non-`bool` inputs of the coercion in `_validate_analysis`, which excludes
the `bool` case before calling it. -/
def strLowerIsTrue : JVal → Bool
  | .str s => pyLower s == "true"
  | _ => false

mutual

/-- `json.dumps` of a JSON value (Python default separators; escaping of
special characters inside strings is elided — no verified property
inspects the dumped text of a string). -/
def dumpsVal : JVal → String
  | .null => "null"
  | .bool true => "true"
  | .bool false => "false"
  | .str s => "\"" ++ s ++ "\""
  | .int n => toString n
  | .arr l => "[" ++ dumpsArr l ++ "]"
  | .obj l => "\x7b" ++ dumpsObj l ++ "\x7d"

def dumpsArr : List JVal → String
  | [] => ""
  | [v] => dumpsVal v
  | v :: t => dumpsVal v ++ ", " ++ dumpsArr t

def dumpsObj : List (String × JVal) → String
  | [] => ""
  | [(k, v)] => "\"" ++ k ++ "\": " ++ dumpsVal v
  | (k, v) :: t => "\"" ++ k ++ "\": " ++ dumpsVal v ++ ", " ++ dumpsObj t

end

/-! ### Inference client: `GeminiClient` (`src/services/gemini_client.py`) -/

/-- The required fields and defaults of `_validate_analysis`
(`gemini_client.py:345-356`), in source order. -/
def requiredDefaults : Dict :=
  [("activity", .str "Unknown activity"),
   ("intent", .str "Unknown"),
   ("issues", .arr []),
   ("should_interrupt", .bool false),
   ("interrupt_message", .str ""),
   ("tags", .arr []),
   ("priority", .str "low"),
   ("extracted_text", .str "")]

/-- `if key not in analysis: analysis[key] = default`
(`gemini_client.py:359-360`). -/
def vsFill (analysis : Dict) (kd : String × JVal) : Dict :=
  if alistHas analysis kd.1 then analysis else alistSet analysis kd.1 kd.2

/-- The `should_interrupt` repair (`gemini_client.py:361-362`): coerce a
non-`bool` value to `str(v).lower() == 'true'`. -/
def vsCoerceSI (analysis : Dict) (key : String) : Dict :=
  if key == "should_interrupt" && !isBool (alistGetD analysis key .null) then
    alistSet analysis key (.bool (strLowerIsTrue (alistGetD analysis key .null)))
  else analysis

/-- The `issues`/`tags` repair (`gemini_client.py:363-364`): wrap a
non-list value into a singleton list, or `[]` when it is falsy. -/
def vsCoerceList (analysis : Dict) (key : String) : Dict :=
  if (key == "issues" || key == "tags") && !isList (alistGetD analysis key .null) then
    alistSet analysis key
      (if pyTruthy (alistGetD analysis key .null) then
        .arr [alistGetD analysis key .null] else .arr [])
  else analysis

/-- One iteration of the `for key, default in defaults.items()` loop of
`_validate_analysis` (`gemini_client.py:358-364`). -/
def validateStep (analysis : Dict) (kd : String × JVal) : Dict :=
  vsCoerceList (vsCoerceSI (vsFill analysis kd) kd.1) kd.1

/-- `GeminiClient._validate_analysis` (`gemini_client.py:345-366`). -/
def validate_analysis (analysis : Dict) : Dict :=
  requiredDefaults.foldl validateStep analysis

/-- A dict of exactly the nine fields `_default_analysis` produces, in
source order. -/
def nineDict (v1 v2 v3 v4 v5 v6 v7 v8 v9 : JVal) : Dict :=
  [("activity", v1), ("intent", v2), ("issues", v3),
   ("should_interrupt", v4), ("interrupt_message", v5), ("tags", v6),
   ("priority", v7), ("extracted_text", v8), ("error", v9)]

/-- `GeminiClient._default_analysis` (`gemini_client.py:368-380`): the
default analysis dict for error cases; `error` is `None` when no error
string is supplied. -/
def default_analysis (app_name : String) (error : Option String) : Dict :=
  nineDict (.str ("Using " ++ app_name)) (.str "Unknown") (.arr [])
    (.bool false) (.str "")
    (if app_name = "Unknown" then .arr [] else .arr [.str (pyLower app_name)])
    (.str "low") (.str "")
    (match error with | some e => .str e | none => .null)

/-- The behaviours of one `analyze_screen` inference round trip
(`gemini_client.py:76-153`): the call (file read, API call, or the
`json.loads` of the matched braces) raises and is caught by the outer
`except` (`throws`); the response text contains no `{...}` match
(`noJson`); or a JSON object is successfully extracted (`json`). -/
inductive InfResponse where
  | throws (msg : String)
  | noJson
  | json (obj : Dict)

/-- `GeminiClient.analyze_screen` (`gemini_client.py:58-153`), as a
function of the active app name and the inference outcome: exceptions
return `_default_analysis(app_name, error=str(e))` directly; a response
with no parsable JSON validates `_default_analysis(app_name)`; a parsed
object is validated. -/
def analyze_screen (app_name : String) (resp : InfResponse) : Dict :=
  match resp with
  | .throws msg => default_analysis app_name (some msg)
  | .noJson => validate_analysis (default_analysis app_name none)
  | .json obj => validate_analysis obj

/-- Uncaught Python exceptions surfaced by the embedded code. -/
inductive PyErr where
  | typeError
  | attributeError

/-- All eight required `AnalysisResult` fields are present. -/
def wellFormed (d : Dict) : Bool :=
  requiredDefaults.all fun kd => alistHas d kd.1

/-! ### Analysis engine: `analyze_capture` (`src/core/analysis_engine.py`) -/

/-- A screen capture event (the fields of `capture_data` the verified
code paths read). -/
structure Capture where
  app_name : String
  window_title : String

/-- `AnalysisEngine.analyze_capture` (`analysis_engine.py:130-158`),
parameterised by the redaction function `redact_sensitive_data` from
`utils/privacy.py` (total on strings). After `analyze_screen` returns, if
`'extracted_text' in analysis and analysis['extracted_text']:` the value
is redacted; `re.sub` inside `redact_sensitive_data` raises `TypeError`
when the (truthy) value is not a string, and that call sits outside every
`try` block. The recent-context lookup only affects the prompt text and
is elided. -/
def analyze_capture (redact : String → String) (capture : Capture)
    (resp : InfResponse) : Except PyErr Dict :=
  let analysis := analyze_screen capture.app_name resp
  match alistGet analysis "extracted_text" with
  | none => .ok analysis
  | some v =>
    if pyTruthy v then
      match v with
      | .str s => .ok (alistSet analysis "extracted_text" (.str (redact s)))
      | _ => .error .typeError
    else .ok analysis

/-- Is the value a Python `str`? -/
def isStrJ : JVal → Bool
  | .str _ => true
  | _ => false

/-- A parsed response object is safe for the redaction step: its
`extracted_text`, when present and truthy, is a string. -/
def extractOk (obj : Dict) : Bool :=
  match alistGet obj "extracted_text" with
  | none => true
  | some v => !pyTruthy v || isStrJ v

/-! ### Embeddings (`gemini_client.py:155-205, 382-395`) -/

/-- `GeminiClient._fallback_embedding` (`gemini_client.py:382-395`):
768 entries `((digest[i % 32] / 255.0) + (i // 32) * 0.01) % 1.0`, with
the SHA-256 digest abstracted as 32 arbitrary bytes and IEEE arithmetic
modelled over the rationals (`x % 1.0` is `Int.fract` for these
non-negative operands). -/
def fallback_embedding (digest : Fin 32 → Fin 256) : List ℚ :=
  (List.range 768).map fun i =>
    Int.fract (((digest ⟨i % 32, Nat.mod_lt i (by decide)⟩ : Fin 256).val : ℚ) / 255
      + ((i / 32 : ℕ) : ℚ) * (1 / 100))

/-- `if not text or not text.strip():` — the input is empty or
whitespace-only (`strip()` yields the empty string exactly when every
character is whitespace). -/
def isBlank (text : String) : Bool :=
  text.isEmpty || text.toList.all Char.isWhitespace

/-- `GeminiClient.generate_embedding` (`gemini_client.py:155-180`): blank
input short-circuits to a 768-dimensional zero vector without touching
the API; otherwise the API result is returned, and on an API exception
the hash fallback is used. `api` is the embedding service's behaviour,
`digest` the SHA-256 digest of the input text. -/
def generate_embedding (text : String) (api : Except Unit (List ℚ))
    (digest : Fin 32 → Fin 256) : List ℚ :=
  if isBlank text then List.replicate 768 0
  else
    match api with
    | .ok e => e
    | .error _ => fallback_embedding digest

/-- `GeminiClient.generate_query_embedding` (`gemini_client.py:182-205`):
textually the same guard and fallback as `generate_embedding`, with the
query task type. -/
def generate_query_embedding (query : String) (api : Except Unit (List ℚ))
    (digest : Fin 32 → Fin 256) : List ℚ :=
  if isBlank query then List.replicate 768 0
  else
    match api with
    | .ok e => e
    | .error _ => fallback_embedding digest

/-! ### Proactive agent (`src/core/proactive_agent.py`) -/

/-- `Config.ALERT_COOLDOWN` (`config.py:64`): 300 seconds. -/
def ALERT_COOLDOWN : ℚ := 300

/-- The in-memory state of a `ProactiveAgent`: the cooldown map
`alert_history` (alert type to last-fired instant, in seconds), the
`alert_count`, and the audit events appended through
`DatabaseService.store_event` (event type and content). -/
structure AgentState where
  alert_history : List (String × ℚ)
  alert_count : Nat
  events : List (String × JVal)

/-- The alert data handed to the registered callback (the fields fixed by
`trigger_alert`; capture and analysis ride along unchanged and are
elided). -/
structure FiredAlert where
  message : JVal
  priority : JVal
  atype : String

/-- `ProactiveAgent.recently_alerted` (`proactive_agent.py:262-278`):
cooldown is active iff the type has fired and fewer than
`Config.ALERT_COOLDOWN` seconds have elapsed since. -/
def recently_alerted (st : AgentState) (alert_type : String) (now : ℚ) : Bool :=
  match alistGet st.alert_history alert_type with
  | none => false
  | some last => decide (now - last < ALERT_COOLDOWN)

/-- `DatabaseService.store_event` (`database.py:293-328`) restricted to
the agent state: append one audit row. -/
def store_event (st : AgentState) (event_type : String) (content : JVal) : AgentState :=
  { st with events := st.events ++ [(event_type, content)] }

/-- `ProactiveAgent.trigger_alert` (`proactive_agent.py:217-260`): store
the audit event, stamp the cooldown map, increment the alert count, then
invoke the callback if one is registered (`cbSet`); a raising callback
(`cbRaises`) is caught and logged, so it only suppresses delivery. The
second component is the alert actually delivered to the callback. -/
def trigger_alert (st : AgentState) (now : ℚ) (message priority : JVal)
    (alert_type : String) (cbRaises cbSet : Bool) : AgentState × Option FiredAlert :=
  let st1 := store_event st "proactive_alert" message
  let st2 := { st1 with
    alert_history := alistSet st1.alert_history alert_type now,
    alert_count := st1.alert_count + 1 }
  (st2, if cbSet && !cbRaises then some ⟨message, priority, alert_type⟩ else none)

/-- `analysis.get(k, '').lower()`: Python raises `AttributeError` when the
value found under `k` is not a string (no `.lower` attribute). -/
def getLower (analysis : Dict) (k : String) : Except PyErr String :=
  match alistGetD analysis k (.str "") with
  | .str s => .ok (pyLower s)
  | _ => .error .attributeError

/-- `proactive_agent.py:110`. -/
def email_apps : List String :=
  ["mail", "outlook", "gmail", "thunderbird", "spark", "airmail"]

/-- `proactive_agent.py:112`. -/
def composing_words : List String :=
  ["compose", "new message", "reply", "forward", "draft"]

/-- `proactive_agent.py:118-119`. -/
def attachment_keywords : List String :=
  ["attach", "attached", "attachment", "attaching",
   "enclosed", "enclosing", "find the file", "see file"]

/-- `proactive_agent.py:188`. -/
def password_indicators : List String :=
  ["[redacted]", "password:", "pwd:", "secret:"]

/-- `proactive_agent.py:195`. -/
def secure_apps : List String :=
  ["keychain", "1password", "lastpass", "dashlane", "bitwarden"]

/-- `proactive_agent.py:202`. -/
def sharing_indicators : List String :=
  ["share", "meeting", "call", "zoom", "teams", "meet"]

/-- `ProactiveAgent.check_email_no_attachment`
(`proactive_agent.py:97-138`). Alert wording abridged (emoji elided). -/
def check_email_no_attachment (capture : Capture) (analysis : Dict)
    (st : AgentState) (now : ℚ) (cbRaises cbSet : Bool) :
    Except PyErr (Bool × AgentState) := do
  let app_name := pyLower capture.app_name
  let window_title := pyLower capture.window_title
  let extracted_text ← getLower analysis "extracted_text"
  let activity ← getLower analysis "activity"
  let is_email_app := email_apps.any fun e => strContains app_name e
  let is_composing := composing_words.any fun w => strContains window_title w
  if !(is_email_app || is_composing) then return (false, st)
  else
    let combined_text := extracted_text ++ " " ++ activity
    if !(attachment_keywords.any fun k => strContains combined_text k) then
      return (false, st)
    else if recently_alerted st "email_no_attachment" now then return (false, st)
    else
      let r := trigger_alert st now
        (.str "You mentioned an attachment but no attachment is present. Did you forget?")
        (.str "high") "email_no_attachment" cbRaises cbSet
      return (true, r.1)

/-- The `for result in similar:` loop of `check_duplicate_work`
(`proactive_agent.py:158-172`): the first neighbour with distance below
0.1 decides. -/
def dupLoop (st : AgentState) (now : ℚ) (cbRaises cbSet : Bool) :
    List ℚ → Bool × AgentState
  | [] => (false, st)
  | d :: rest =>
    if d < 1 / 10 then
      if recently_alerted st "duplicate_work" now then (false, st)
      else
        (true, (trigger_alert st now
          (.str "You did very similar work recently. Want to reuse it?")
          (.str "low") "duplicate_work" cbRaises cbSet).1)
    else dupLoop st now cbRaises cbSet rest

/-- `ProactiveAgent.check_duplicate_work` (`proactive_agent.py:140-176`):
the whole body is wrapped in `try/except Exception: return False`, so a
failing embedding or vector query (`dupEnv = .error`) yields `False`;
otherwise the neighbour distances returned by the vector store drive the
loop. -/
def check_duplicate_work (dupEnv : Except Unit (List ℚ)) (st : AgentState)
    (now : ℚ) (cbRaises cbSet : Bool) : Bool × AgentState :=
  match dupEnv with
  | .error _ => (false, st)
  | .ok distances => dupLoop st now cbRaises cbSet distances

/-- `ProactiveAgent.check_password_exposed`
(`proactive_agent.py:178-215`). -/
def check_password_exposed (capture : Capture) (analysis : Dict)
    (st : AgentState) (now : ℚ) (cbRaises cbSet : Bool) :
    Except PyErr (Bool × AgentState) := do
  let extracted_text ← getLower analysis "extracted_text"
  if !(password_indicators.any fun i => strContains extracted_text i) then
    return (false, st)
  else
    let app_name := pyLower capture.app_name
    if secure_apps.any fun a => strContains app_name a then return (false, st)
    else
      let window_title := pyLower capture.window_title
      let is_sharing := sharing_indicators.any fun i => strContains window_title i
      if is_sharing && !recently_alerted st "password_exposed" now then
        return (true, (trigger_alert st now
          (.str "Potential password visible while screen sharing!")
          (.str "critical") "password_exposed" cbRaises cbSet).1)
      else return (false, st)

/-- `ProactiveAgent.check_proactive_rules` (`proactive_agent.py:73-95`):
rules run in the fixed order email / duplicate-work / password-exposure,
each short-circuiting when it fires. The fourth call,
`self.check_deadline_approaching(...)` (`proactive_agent.py:94`), names a
method that is defined nowhere in the class (or the repository), so
attribute lookup raises `AttributeError` whenever evaluation reaches
it. -/
def check_proactive_rules (capture : Capture) (analysis : Dict)
    (dupEnv : Except Unit (List ℚ)) (st : AgentState) (now : ℚ)
    (cbRaises cbSet : Bool) : Except PyErr AgentState := do
  let r1 ← check_email_no_attachment capture analysis st now cbRaises cbSet
  if r1.1 then return r1.2
  else
    let r2 := check_duplicate_work dupEnv r1.2 now cbRaises cbSet
    if r2.1 then return r2.2
    else
      let r3 ← check_password_exposed capture analysis r2.2 now cbRaises cbSet
      if r3.1 then return r3.2
      else .error .attributeError

/-- `ProactiveAgent.evaluate_situation` (`proactive_agent.py:46-71`):
when `Config.PROACTIVE_ENABLED` is off, do nothing; when the analysis set
a truthy `should_interrupt`, fire the `ai_interrupt` alert if the message
is truthy and the type is not cooling down, and in every such case
`return` without evaluating the deterministic rules; otherwise run
`check_proactive_rules`. -/
def evaluate_situation (enabled : Bool) (capture : Capture) (analysis : Dict)
    (dupEnv : Except Unit (List ℚ)) (st : AgentState) (now : ℚ)
    (cbRaises cbSet : Bool) : Except PyErr AgentState :=
  if !enabled then .ok st
  else if pyTruthy (alistGetD analysis "should_interrupt" (.bool false)) then
    let message := alistGetD analysis "interrupt_message" (.str "Attention needed")
    if pyTruthy message && !recently_alerted st "ai_interrupt" now then
      .ok (trigger_alert st now message
        (alistGetD analysis "priority" (.str "medium")) "ai_interrupt"
        cbRaises cbSet).1
    else .ok st
  else
    check_proactive_rules capture analysis dupEnv st now cbRaises cbSet

/-! ### Database service (`src/services/database.py`) -/

/-- One row of the `activities` table (the columns the verified paths
read). `timestamp` is a chronological key for the stored ISO-8601 text:
lexicographic order on that text is chronological, so it is modelled by a
natural number. `analysis` holds the dict whose `json.dumps` text the
`analysis` column stores (`NULL` when absent). -/
structure StoredActivity where
  id : Nat
  timestamp : Nat
  activity_type : String
  app_name : String
  window_title : String
  analysis : Option Dict
  tags : String
  priority : JVal

/-- Descending-timestamp order (`ORDER BY timestamp DESC`,
`sort(key=..., reverse=True)`): `a` may precede `b` iff
`b.timestamp ≤ a.timestamp`. -/
def tsDescLE (a b : StoredActivity) : Prop :=
  b.timestamp ≤ a.timestamp

instance : DecidableRel tsDescLE := fun a b => Nat.decLe b.timestamp a.timestamp

instance : IsTotal StoredActivity tsDescLE :=
  ⟨fun a b => Nat.le_total b.timestamp a.timestamp⟩

instance : IsTrans StoredActivity tsDescLE :=
  ⟨fun _ _ _ h1 h2 => le_trans h2 h1⟩

/-- Stable descending-timestamp sort. Python's `list.sort` and SQLite's
`ORDER BY` both present rows largest-timestamp first; `insertionSort`
with `tsDescLE` is stable the same way `list.sort(reverse=True)` is. -/
def sortTsDesc (l : List StoredActivity) : List StoredActivity :=
  l.insertionSort tsDescLE

/-- The relational store plus the vector index (ChromaDB collection keyed
by stringified activity id). -/
structure DBState where
  activities : List StoredActivity
  next_id : Nat
  index : List (String × List ℚ)

/-- `','.join(analysis.get('tags', []))` (`database.py:145`); `join`
raises on non-string elements, a path no verified property exercises, so
non-string tags are dropped rather than raised on. -/
def tagsOf (analysis : Option Dict) : String :=
  match analysis with
  | none => ""
  | some a =>
    match alistGetD a "tags" (.arr []) with
    | .arr l => String.intercalate ","
        (l.filterMap fun v => match v with | .str s => some s | _ => none)
    | _ => ""

/-- `analysis.get('priority', 'low') if analysis else 'low'`
(`database.py:146`). -/
def priorityOf (analysis : Option Dict) : JVal :=
  match analysis with
  | none => .str "low"
  | some a => alistGetD a "priority" (.str "low")

/-- `DatabaseService._store_embedding` (`database.py:178-189`) together
with `VectorStore.add_embedding` (`vector_store.py:58-95`): upsert into
the index keyed by the stringified activity id; every exception
(`indexFails`) is caught and logged, leaving the index unchanged. -/
def store_embedding_write (db : DBState) (activity_id : Nat)
    (embedding : List ℚ) (indexFails : Bool) : DBState :=
  if indexFails then db
  else { db with index := alistSet db.index (toString activity_id) embedding }

/-- `DatabaseService.store_activity` (`database.py:112-176`): insert the
activity row (synchronous SQLite insert + commit), and only afterwards,
`if embedding:` (Python truthiness: present and non-empty), attempt the
separate vector-index write through `_store_embedding`. Returns the new
state and the assigned activity id. -/
def store_activity (db : DBState) (timestamp : Nat)
    (activity_type app_name window_title : String) (analysis : Option Dict)
    (embedding : Option (List ℚ)) (indexFails : Bool) : DBState × Nat :=
  let row : StoredActivity :=
    ⟨db.next_id, timestamp, activity_type, app_name, window_title,
     analysis, tagsOf analysis, priorityOf analysis⟩
  let db1 := { db with activities := db.activities ++ [row], next_id := db.next_id + 1 }
  let db2 :=
    match embedding with
    | some e => if e.isEmpty then db1 else store_embedding_write db1 db.next_id e indexFails
    | none => db1
  (db2, db.next_id)

/-- Does a row match `(window_title LIKE '%q%' OR analysis LIKE '%q%')`
(`database.py:270-272`)? A `NULL` analysis column never matches. -/
def rowMatches (q : String) (a : StoredActivity) : Bool :=
  likeContains a.window_title q ||
    (match a.analysis with
     | some d => likeContains ("\x7b" ++ dumpsObj d ++ "\x7d") q
     | none => false)

/-- `DatabaseService.search_activities` (`database.py:225-291`) on the
call shapes the query engine uses (a substring `query` filter, or none,
plus `LIMIT`); rows come back `ORDER BY timestamp DESC`. -/
def search_activities (db : List StoredActivity) (query : Option String)
    (limit : Nat) : List StoredActivity :=
  let filtered :=
    match query with
    | none => db
    | some q => db.filter (rowMatches q)
  (sortTsDesc filtered).take limit

/-- `DatabaseService.get_recent_activities` (`database.py:191-223`):
newest `limit` rows. -/
def get_recent_activities (db : List StoredActivity) (limit : Nat) :
    List StoredActivity :=
  (sortTsDesc db).take limit

/-! ### Query engine (`src/core/query_engine.py`) -/

/-- `unique_activities[act['id']] = act` (`query_engine.py` semantic
search): keyed insertion into the de-duplicated-by-id collection. -/
def pyInsert (m : List (Nat × StoredActivity)) (a : StoredActivity) :
    List (Nat × StoredActivity) :=
  alistSet m a.id a

/-- The ids the vector stage will hydrate: nothing on a caught vector
error or an empty result list, else the digit-string ids parsed with
`int(...)` (`query_engine.py:212-216`). -/
def vectorIds (vec : Except Unit (List String)) : List Nat :=
  match vec with
  | .error _ => []
  | .ok results =>
    if results.isEmpty then []
    else (results.filter isDigitStr).map strToNat

/-- Hydration of one id (`query_engine.py:217-223`): a substring search
for the id's decimal string with `limit=1`; a hit is keyed under its own
id. -/
def hydrateStep (db : List StoredActivity) (m : List (Nat × StoredActivity))
    (aid : Nat) : List (Nat × StoredActivity) :=
  match search_activities db (some (toString aid)) 1 with
  | [] => m
  | act :: _ => pyInsert m act

/-- Stage 1 of `QueryEngine.semantic_search` (`query_engine.py:210-225`):
only the first 10 parsed ids (`activity_ids[:10]`) are hydrated. -/
def vectorStage (db : List StoredActivity) (vec : Except Unit (List String)) :
    List (Nat × StoredActivity) :=
  ((vectorIds vec).take 10).foldl (hydrateStep db) []

/-- `[w for w in query.split() if len(w) > 3]` (`query_engine.py:229`). -/
def keywordsOf (query : String) : List String :=
  (pySplitWs query).filter fun w => decide (3 < w.length)

/-- Stage 2 of `semantic_search` (`query_engine.py:227-236`): per-keyword
substring search (`limit=10`), hits merged into the same collection. -/
def keywordStage (db : List StoredActivity) (kws : List String)
    (m : List (Nat × StoredActivity)) : List (Nat × StoredActivity) :=
  kws.foldl (fun acc w => (search_activities db (some w) 10).foldl pyInsert acc) m

/-- Stage 3 of `semantic_search` (`query_engine.py:238-243`): merge the
10 most recent rows into the collection. -/
def recencyStage (db : List StoredActivity) (m : List (Nat × StoredActivity)) :
    List (Nat × StoredActivity) :=
  (get_recent_activities db 10).foldl pyInsert m

/-- `list(unique_activities.values())` sorted descending by timestamp
(`query_engine.py:245-247`). -/
def finalSort (m : List (Nat × StoredActivity)) : List StoredActivity :=
  sortTsDesc (m.map Prod.snd)

/-- A trace of one `semantic_search` execution: the collection after the
vector stage, whether and with which keywords stage 2 ran, the collection
after stage 2, whether stage 3 ran, and the returned list. -/
structure FunnelRun where
  afterVector : List (Nat × StoredActivity)
  keywordRan : Bool
  keywords : List String
  afterKeyword : List (Nat × StoredActivity)
  recencyRan : Bool
  result : List StoredActivity

/-- `QueryEngine.semantic_search` (`query_engine.py:202-249`) with its
stage trace: stage 2 runs exactly when fewer than 5 unique records were
gathered, stage 3 exactly when the collection is still empty. `vec` is
the outcome of `vector_store.search_by_text(query, limit=20)` (its
caught-and-logged failure, or the ranked ids). -/
def semantic_search_run (db : List StoredActivity)
    (vec : Except Unit (List String)) (query : String) : FunnelRun :=
  let m1 := vectorStage db vec
  if m1.length < 5 then
    let kws := keywordsOf query
    let m2 := keywordStage db kws m1
    if m2.isEmpty then
      ⟨m1, true, kws, m2, true, finalSort (recencyStage db m2)⟩
    else
      ⟨m1, true, kws, m2, false, finalSort m2⟩
  else
    if m1.isEmpty then
      ⟨m1, false, [], m1, true, finalSort (recencyStage db m1)⟩
    else
      ⟨m1, false, [], m1, false, finalSort m1⟩

/-- The list `semantic_search` returns. -/
def semantic_search (db : List StoredActivity)
    (vec : Except Unit (List String)) (query : String) : List StoredActivity :=
  (semantic_search_run db vec query).result

/-- Fetching a record by its id — the hydration the specification
describes for the vector stage. Modelled from the spec: "hydrate full
records by id"; no such by-id fetch exists in `database.py`, whose
`search_activities` only filters by substring/time/app/tags. Used to
compare the spec's wording with what the code does. -/
def specHydrateById (db : List StoredActivity) (aid : Nat) :
    Option StoredActivity :=
  db.find? fun a => a.id == aid

/-! ### Query classification and time ranges (`query_engine.py:66-200`) -/

/-- A naive Python `datetime` at one-second granularity: an absolute
calendar-day number (day 0 anchored on a Monday, so `weekday()` is
`day mod 7`) plus the time of day. `datetime.replace` and
`timedelta(days=n)` act directly on these fields; second-valued
`timedelta`s go through total seconds. -/
structure PyDateTime where
  day : Int
  hour : Nat
  minute : Nat
  second : Nat

/-- `now - timedelta(days=n)` on a naive datetime: the calendar day moves
back, the time of day is unchanged. -/
def subDays (dt : PyDateTime) (n : Int) : PyDateTime :=
  { dt with day := dt.day - n }

/-- `dt.replace(hour=h, minute=m, second=s, ...)` (microseconds are below
this model's granularity). -/
def replaceHMS (dt : PyDateTime) (h m s : Nat) : PyDateTime :=
  ⟨dt.day, h, m, s⟩

def toSeconds (dt : PyDateTime) : Int :=
  dt.day * 86400 + dt.hour * 3600 + dt.minute * 60 + dt.second

def ofSeconds (t : Int) : PyDateTime :=
  ⟨t.ediv 86400,
   (t.emod 86400).toNat / 3600,
   (t.emod 86400).toNat % 3600 / 60,
   (t.emod 86400).toNat % 60⟩

/-- `dt - timedelta(seconds=k)`. -/
def subSeconds (dt : PyDateTime) (k : Int) : PyDateTime :=
  ofSeconds (toSeconds dt - k)

/-- `dt.weekday()` (Monday = 0) under the day-0-is-a-Monday anchor. -/
def weekdayOf (dt : PyDateTime) : Nat :=
  (dt.day.emod 7).toNat

/-- Strip a literal from the front of a character list
(`None` when it is not a prefix). -/
def dropLit : List Char → List Char → Option (List Char)
  | [], s => some s
  | _ :: _, [] => none
  | p :: pt, c :: ct => if p = c then dropLit pt ct else none

/-- `re.search(r'last (\d+) hours?', q)`: scan left to right for
`"last "` followed by one or more digits followed by `" hour"` (the
optional trailing `s` does not affect whether a match exists); return the
captured digits. Greedy `\d+` needs no backtracking here because a digit
can never start `" hour"`. -/
def findLastNHours : List Char → Option String
  | [] => none
  | s@(_ :: t) =>
    match dropLit "last ".toList s with
    | some rest =>
      let ds := rest.takeWhile Char.isDigit
      let rest2 := rest.dropWhile Char.isDigit
      if !ds.isEmpty && (dropLit " hour".toList rest2).isSome then
        some (String.mk ds)
      else findLastNHours t
    | none => findLastNHours t

/-- `re.search(r'(\d+) minutes? ago', q)`: scan for digits followed by
`" minute ago"` or `" minutes ago"`; return the captured digits. -/
def findMinutesAgo : List Char → Option String
  | [] => none
  | s@(_ :: t) =>
    let ds := s.takeWhile Char.isDigit
    let rest := s.dropWhile Char.isDigit
    if !ds.isEmpty &&
        ((dropLit " minutes ago".toList rest).isSome ||
         (dropLit " minute ago".toList rest).isSome) then
      some (String.mk ds)
    else findMinutesAgo t

/-- `re.search(r'lit ([a-zA-Z]+)', q)` for a literal `lit` followed by a
space: scan for the literal and capture the following ASCII-letter
run. -/
def findWordAfter (lit : String) : List Char → Option String
  | [] => none
  | s@(_ :: t) =>
    match dropLit lit.toList s with
    | some rest =>
      let ws := rest.takeWhile Char.isAlpha
      if !ws.isEmpty then some (String.mk ws) else findWordAfter lit t
    | none => findWordAfter lit t

/-- Python `pat in q` for the literal patterns of `classify_query`. -/
def litIn (q : List Char) (pat : String) : Bool :=
  strContainsCL pat.toList q

/-- The temporal pattern scan of `classify_query`
(`query_engine.py:76-98`), in source order: the matched `time_type` and
the captured group when the pattern has one. -/
def temporalMatch (q : List Char) : Option (String × Option String) :=
  if litIn q "today" then some ("today", none)
  else if litIn q "yesterday" then some ("yesterday", none)
  else if litIn q "this morning" then some ("this_morning", none)
  else if litIn q "this afternoon" then some ("this_afternoon", none)
  else if litIn q "this hour" then some ("this_hour", none)
  else if litIn q "last hour" then some ("last_hour", none)
  else
    match findLastNHours q with
    | some v => some ("last_n_hours", some v)
    | none =>
      if litIn q "last week" then some ("last_week", none)
      else if litIn q "this week" then some ("this_week", none)
      else
        match findMinutesAgo q with
        | some v => some ("minutes_ago", some v)
        | none =>
          if litIn q "just now" then some ("just_now", none)
          else if litIn q "recently" then some ("recent", none)
          else none

/-- The query buckets of `classify_query`. -/
inductive QueryType where
  | temporal
  | entity
  | stats
  | semantic

/-- The params dict built by `classify_query`: `time_type` and `value`
for temporal queries, `name` for entity queries. -/
structure QueryParams where
  time_type : Option String
  value : Option String
  name : Option String

/-- `query_engine.py:116`. -/
def system_stats_terms : List String :=
  ["activity stats", "system stats", "how many memories", "total events",
   "database size"]

/-- The entity-pattern scan (`query_engine.py:101-112`), in source
order. -/
def entityMatch (q : List Char) : Option String :=
  match findWordAfter "about " q with
  | some n => some n
  | none =>
    match findWordAfter "with " q with
    | some n => some n
    | none =>
      match findWordAfter "from " q with
      | some n => some n
      | none => findWordAfter "in " q

/-- `QueryEngine.classify_query` (`query_engine.py:66-121`) on the
already-lowercased query: temporal patterns first, then entity phrasing
gated by person-indicating words, then the system-stats whitelist, else
semantic. -/
def classify_query (query : String) : QueryType × QueryParams :=
  let q := query.toList
  match temporalMatch q with
  | some (tt, v) => (.temporal, ⟨some tt, v, none⟩)
  | none =>
    if (litIn q "who" || litIn q "person" || litIn q "email from") &&
        (entityMatch q).isSome then
      (.entity, ⟨none, none, entityMatch q⟩)
    else if system_stats_terms.any fun t => litIn q t then
      (.stats, ⟨none, none, none⟩)
    else (.semantic, ⟨none, none, none⟩)

/-- Python truthiness of the optional captured `value` string. -/
def valTruthy (value : Option String) : Bool :=
  match value with
  | some v => !v.isEmpty
  | none => false

/-- `QueryEngine.extract_time_range` (`query_engine.py:143-200`): map the
symbolic `time_type` (default `'today'`) and optional captured value to a
concrete `(start, end)` pair anchored at `now`. -/
def extract_time_range (params : QueryParams) (now : PyDateTime) :
    PyDateTime × PyDateTime :=
  let time_type := params.time_type.getD "today"
  let value := params.value
  if time_type = "today" then (replaceHMS now 0 0 0, now)
  else if time_type = "yesterday" then
    let yesterday := subDays now 1
    (replaceHMS yesterday 0 0 0, replaceHMS yesterday 23 59 59)
  else if time_type = "this_morning" then
    (replaceHMS now 0 0 0, replaceHMS now 12 0 0)
  else if time_type = "this_afternoon" then (replaceHMS now 12 0 0, now)
  else if time_type = "this_hour" then (⟨now.day, now.hour, 0, 0⟩, now)
  else if time_type = "last_hour" then (subSeconds now 3600, now)
  else if time_type = "last_n_hours" ∧ valTruthy value = true then
    (subSeconds now (3600 * (strToNat (value.getD ""))), now)
  else if time_type = "last_week" then (subSeconds now (7 * 86400), now)
  else if time_type = "this_week" then
    (replaceHMS (subDays now (weekdayOf now)) 0 0 0, now)
  else if time_type = "minutes_ago" ∧ valTruthy value = true then
    (subSeconds now (60 * (strToNat (value.getD ""))), now)
  else if time_type = "just_now" then (subSeconds now 300, now)
  else if time_type = "recent" then (subSeconds now 7200, now)
  else (replaceHMS now 0 0 0, now)

/-- Invariant of the `unique_activities` dict: every entry is keyed by
its record's id, and keys are distinct. -/
def MapInv (m : List (Nat × StoredActivity)) : Prop :=
  (∀ p ∈ m, p.1 = p.2.id) ∧ (m.map Prod.fst).Nodup

/-- Counterexample records for the vector stage: row 7 has the digits
`42` in its window title and is more recent than row 42. -/
def cxA : StoredActivity :=
  ⟨7, 100, "screen", "Notes", "note 42", none, "", .str "low"⟩

def cxB : StoredActivity :=
  ⟨42, 50, "screen", "Code", "editor", none, "", .str "low"⟩

def cxDb : List StoredActivity := [cxA, cxB]

/-! ## Verified properties -/

/-! ### Association-list lemmas -/

section AListLemmas

variable {κ : Type _} {α : Type _} [DecidableEq κ]

theorem alistGet_set_self (m : List (κ × α)) (k : κ) (v : α) :
    alistGet (alistSet m k v) k = some v := by
  induction m with
  | nil => simp [alistSet, alistGet]
  | cons p t ih =>
    obtain ⟨k1, v1⟩ := p
    by_cases h : k1 = k <;> simp [alistSet, alistGet, h, ih]

theorem alistGet_set_ne (m : List (κ × α)) (k k' : κ) (v : α) (h : k' ≠ k) :
    alistGet (alistSet m k v) k' = alistGet m k' := by
  induction m with
  | nil => simp [alistSet, alistGet, Ne.symm h]
  | cons p t ih =>
    obtain ⟨k1, v1⟩ := p
    by_cases h1 : k1 = k
    · subst h1
      simp [alistSet, alistGet, Ne.symm h]
    · by_cases h2 : k1 = k' <;> simp [alistSet, alistGet, h1, h2, h, ih]

theorem alistHas_set_self (m : List (κ × α)) (k : κ) (v : α) :
    alistHas (alistSet m k v) k = true := by
  simp [alistHas, alistGet_set_self]

theorem alistHas_set_mono (m : List (κ × α)) (k k' : κ) (v : α)
    (h : alistHas m k' = true) : alistHas (alistSet m k v) k' = true := by
  by_cases hk : k' = k
  · subst hk; exact alistHas_set_self m k' v
  · simpa [alistHas, alistGet_set_ne m k k' v hk] using h

theorem mem_alistSet (m : List (κ × α)) (k : κ) (v : α) (p : κ × α)
    (hp : p ∈ alistSet m k v) : p = (k, v) ∨ p ∈ m := by
  induction m with
  | nil => simpa [alistSet] using hp
  | cons q t ih =>
    obtain ⟨k1, v1⟩ := q
    by_cases h : k1 = k
    · simp only [alistSet, if_pos h, List.mem_cons] at hp
      rcases hp with h1 | h1
      · exact Or.inl h1
      · exact Or.inr (List.mem_cons_of_mem _ h1)
    · simp only [alistSet, if_neg h, List.mem_cons] at hp
      rcases hp with h1 | h1
      · exact Or.inr (h1 ▸ List.mem_cons_self _ _)
      · rcases ih h1 with h2 | h2
        · exact Or.inl h2
        · exact Or.inr (List.mem_cons_of_mem _ h2)

theorem keys_alistSet_sub (m : List (κ × α)) (k : κ) (v : α) (k' : κ)
    (h : k' ∈ (alistSet m k v).map Prod.fst) :
    k' ∈ m.map Prod.fst ∨ k' = k := by
  rcases List.mem_map.mp h with ⟨p, hp, hk⟩
  rcases mem_alistSet m k v p hp with h1 | h1
  · right; rw [← hk, h1]
  · left; exact hk ▸ List.mem_map_of_mem Prod.fst h1

theorem mem_keys_alistSet_self (m : List (κ × α)) (k : κ) (v : α) :
    k ∈ (alistSet m k v).map Prod.fst := by
  induction m with
  | nil => simp [alistSet]
  | cons q t ih =>
    obtain ⟨k1, v1⟩ := q
    by_cases h : k1 = k <;> simp [alistSet, h, ih]

theorem mem_keys_alistSet_mono (m : List (κ × α)) (k : κ) (v : α) (k' : κ)
    (h : k' ∈ m.map Prod.fst) : k' ∈ (alistSet m k v).map Prod.fst := by
  induction m with
  | nil => simp at h
  | cons q t ih =>
    obtain ⟨k1, v1⟩ := q
    by_cases hk : k1 = k
    · subst hk
      rcases List.mem_cons.mp h with h1 | h1
      · subst h1; simp [alistSet, mem_keys_alistSet_self]
      · simp [alistSet, h1]
    · rcases List.mem_cons.mp h with h1 | h1
      · simp [alistSet, hk, h1]
      · simp only [alistSet, if_neg hk, List.map_cons, List.mem_cons]
        exact Or.inr (ih h1)

theorem keys_alistSet_nodup (m : List (κ × α)) (k : κ) (v : α)
    (h : (m.map Prod.fst).Nodup) : ((alistSet m k v).map Prod.fst).Nodup := by
  induction m with
  | nil => simp [alistSet]
  | cons q t ih =>
    obtain ⟨k1, v1⟩ := q
    simp only [List.map_cons, List.nodup_cons] at h
    by_cases hk : k1 = k
    · subst hk
      simpa [alistSet, List.nodup_cons] using h
    · simp only [alistSet, if_neg hk, List.map_cons, List.nodup_cons]
      refine ⟨fun hmem => ?_, ih h.2⟩
      rcases keys_alistSet_sub t k v k1 hmem with h1 | h1
      · exact h.1 h1
      · exact hk h1

theorem alistSet_values_pred (P : κ × α → Prop) (m : List (κ × α)) (k : κ) (v : α)
    (h : ∀ p ∈ m, P p) (hkv : P (k, v)) : ∀ p ∈ alistSet m k v, P p := by
  intro p hp
  rcases mem_alistSet m k v p hp with h1 | h1
  · exact h1 ▸ hkv
  · exact h p h1

theorem alistSet_ne_nil (m : List (κ × α)) (k : κ) (v : α) :
    alistSet m k v ≠ [] := by
  cases m with
  | nil => simp [alistSet]
  | cons q t =>
    obtain ⟨k1, v1⟩ := q
    by_cases h : k1 = k <;> simp [alistSet, h]

theorem alistSet_append_of_fresh (m : List (κ × α)) (k : κ) (v : α)
    (h : k ∉ m.map Prod.fst) : alistSet m k v = m ++ [(k, v)] := by
  induction m with
  | nil => simp [alistSet]
  | cons q t ih =>
    obtain ⟨k1, v1⟩ := q
    simp only [List.map_cons, List.mem_cons, not_or] at h
    simp [alistSet, Ne.symm h.1, ih h.2]

end AListLemmas


/-- C10: empty or whitespace-only input yields the 768-dimensional zero
vector independently of the embedding service and of the digest (the
service is never consulted), and on an inference failure with non-blank
input both embedding entry points return the hash fallback, which has
exactly 768 entries, each in `[0, 1)`. -/
theorem C10_embedding_defaults (text : String) (api : Except Unit (List ℚ))
    (digest : Fin 32 → Fin 256) :
    (text.toList.all Char.isWhitespace = true →
      generate_embedding text api digest = List.replicate 768 0
      ∧ generate_query_embedding text api digest = List.replicate 768 0)
    ∧ (fallback_embedding digest).length = 768
    ∧ (∀ x ∈ fallback_embedding digest, 0 ≤ x ∧ x < 1)
    ∧ (isBlank text = false →
      generate_embedding text (.error ()) digest = fallback_embedding digest
      ∧ generate_query_embedding text (.error ()) digest = fallback_embedding digest) := by
  refine ⟨fun h => ?_, ?_, fun x hx => ?_, fun h => ?_⟩
  · have hb : isBlank text = true := by
      simp only [isBlank, h, Bool.or_true]
    constructor <;> simp [generate_embedding, generate_query_embedding, hb]
  · simp [fallback_embedding]
  · simp only [fallback_embedding, List.mem_map, List.mem_range] at hx
    obtain ⟨i, _, rfl⟩ := hx
    exact ⟨Int.fract_nonneg _, Int.fract_lt_one _⟩
  · constructor <;> simp [generate_embedding, generate_query_embedding, h]

/-- Witness for C10 at concrete inputs: a whitespace-only string maps to
the zero vector even when the service would answer, and a failing service
on `"hello"` yields the fallback. -/
theorem C10_embedding_defaults_witness :
    generate_embedding "  " (.ok [5]) (fun _ => 0) = List.replicate 768 0
    ∧ generate_embedding "hello" (.error ()) (fun _ => 0)
        = fallback_embedding (fun _ => 0) := by
  refine ⟨((C10_embedding_defaults "  " (.ok [5]) (fun _ => 0)).1 (by decide)).1, ?_⟩
  exact ((C10_embedding_defaults "hello" (.error ()) (fun _ => 0)).2.2.2 (by decide)).1

/-- C8: `store_activity` always appends exactly the one activity row
built from its arguments, whatever the vector-index write does; a failing
index write leaves the index untouched, and the stored row is identical
whether the index write fails or succeeds. -/
theorem C8_write_isolation (db : DBState) (ts : Nat)
    (ty app wt : String) (analysis : Option Dict) (emb : Option (List ℚ))
    (fails : Bool) :
    ((store_activity db ts ty app wt analysis emb fails).1).activities
      = db.activities
        ++ [⟨db.next_id, ts, ty, app, wt, analysis, tagsOf analysis, priorityOf analysis⟩]
    ∧ ((store_activity db ts ty app wt analysis emb true).1).activities
        = ((store_activity db ts ty app wt analysis emb false).1).activities
    ∧ ((store_activity db ts ty app wt analysis emb true).1).index = db.index := by
  cases emb with
  | none => exact ⟨rfl, rfl, rfl⟩
  | some e =>
    cases fails <;> by_cases he : e.isEmpty <;>
      simp [store_activity, store_embedding_write, he]

/-- C9: `trigger_alert` records the audit event, the cooldown stamp and
the alert count identically whether the registered callback raises or
not (a raising callback only suppresses delivery), and the recorded data
is exactly one audit row, the stamped `now`, and a count increment. -/
theorem C9_callback_isolation (st : AgentState) (now : ℚ) (m p : JVal)
    (atype : String) (cbRaises cbSet : Bool) :
    (trigger_alert st now m p atype cbRaises cbSet).1
      = (trigger_alert st now m p atype false cbSet).1
    ∧ alistGet ((trigger_alert st now m p atype cbRaises cbSet).1).alert_history atype
        = some now
    ∧ ((trigger_alert st now m p atype cbRaises cbSet).1).alert_count
        = st.alert_count + 1
    ∧ ((trigger_alert st now m p atype cbRaises cbSet).1).events
        = st.events ++ [("proactive_alert", m)]
    ∧ (trigger_alert st now m p atype cbRaises cbSet).2
        = (if cbSet && !cbRaises then some ⟨m, p, atype⟩ else none) := by
  refine ⟨rfl, ?_, rfl, rfl, rfl⟩
  simp [trigger_alert, store_event, alistGet_set_self]

/-- C3: after type `X` is stamped at `t0`, a firing attempt of `X` at
`t0 + Δ` is suppressed exactly when `Δ < ALERT_COOLDOWN`; stamping `X`
leaves the cooldown status of every other type `Y` unchanged at every
instant; and a type that was never stamped is never suppressed. -/
theorem C3_cooldown_policy (st : AgentState) (t0 d now : ℚ) (X Y : String)
    (m p : JVal) (cbRaises cbSet : Bool) :
    (recently_alerted ((trigger_alert st t0 m p X cbRaises cbSet).1) X (t0 + d) = true
      ↔ d < ALERT_COOLDOWN)
    ∧ (Y ≠ X →
      recently_alerted ((trigger_alert st t0 m p X cbRaises cbSet).1) Y now
        = recently_alerted st Y now)
    ∧ (alistGet st.alert_history Y = none → recently_alerted st Y now = false) := by
  refine ⟨?_, fun h => ?_, fun h => ?_⟩
  · simp [recently_alerted, trigger_alert, store_event, alistGet_set_self]
  · simp [recently_alerted, trigger_alert, store_event,
      alistGet_set_ne _ _ _ _ h]
  · simp [recently_alerted, h]

/-- Witness for C3 at concrete inputs: type `"a"` stamped at 0 is
suppressed at `0 + 1` iff `1 < 300`; the stamp leaves `"b"` untouched;
an empty history never suppresses. -/
theorem C3_cooldown_policy_witness :
    (recently_alerted ((trigger_alert ⟨[], 0, []⟩ 0 .null .null "a" false false).1)
        "a" (0 + 1) = true ↔ (1 : ℚ) < ALERT_COOLDOWN)
    ∧ recently_alerted ((trigger_alert ⟨[], 0, []⟩ 0 .null .null "a" false false).1)
        "b" 7 = recently_alerted ⟨[], 0, []⟩ "b" 7
    ∧ recently_alerted ⟨[], 0, []⟩ "b" 7 = false := by
  refine ⟨(C3_cooldown_policy ⟨[], 0, []⟩ 0 1 7 "a" "b" .null .null false false).1, ?_, ?_⟩
  · exact (C3_cooldown_policy ⟨[], 0, []⟩ 0 1 7 "a" "b" .null .null false false).2.1
      (by decide)
  · exact (C3_cooldown_policy ⟨[], 0, []⟩ 0 1 7 "a" "b" .null .null false false).2.2 rfl

/-- C2: on an analysis with a falsy `should_interrupt` and a capture that
fires none of the first three deterministic rules, `evaluate_situation`
raises `AttributeError` instead of evaluating a deadline-approaching
rule, because `check_proactive_rules` calls the never-defined
`self.check_deadline_approaching`. -/
theorem C2_deadline_rule_missing :
    evaluate_situation true ⟨"", ""⟩ [] (.error ()) ⟨[], 0, []⟩ 0 false false
      = .error .attributeError := rfl

/-- C7: the lowercased query `"what did i do yesterday"` is classified as
temporal with `time_type = 'yesterday'`, and for every current instant
that time type resolves to the previous calendar day from 00:00:00 to
23:59:59. -/
theorem C7_yesterday_range :
    classify_query "what did i do yesterday"
      = (.temporal, ⟨some "yesterday", none, none⟩)
    ∧ ∀ now : PyDateTime,
      extract_time_range ⟨some "yesterday", none, none⟩ now
        = (⟨now.day - 1, 0, 0, 0⟩, ⟨now.day - 1, 23, 59, 59⟩) := by
  exact ⟨rfl, fun now => rfl⟩

/-! ### C1 support: properties of `_validate_analysis` -/

theorem vsFill_get_other (a : Dict) (kd : String × JVal) (k : String)
    (h : k ≠ kd.1) : alistGet (vsFill a kd) k = alistGet a k := by
  unfold vsFill
  split
  · rfl
  · exact alistGet_set_ne _ _ _ _ h

theorem vsCoerceSI_get_other (a : Dict) (key k : String) (h : k ≠ key) :
    alistGet (vsCoerceSI a key) k = alistGet a k := by
  unfold vsCoerceSI
  split
  · exact alistGet_set_ne _ _ _ _ h
  · rfl

theorem vsCoerceList_get_other (a : Dict) (key k : String) (h : k ≠ key) :
    alistGet (vsCoerceList a key) k = alistGet a k := by
  unfold vsCoerceList
  split
  · exact alistGet_set_ne _ _ _ _ h
  · rfl

theorem validateStep_get_other (a : Dict) (kd : String × JVal) (k : String)
    (h : k ≠ kd.1) : alistGet (validateStep a kd) k = alistGet a k := by
  unfold validateStep
  rw [vsCoerceList_get_other _ _ _ h, vsCoerceSI_get_other _ _ _ h,
    vsFill_get_other _ _ _ h]

theorem vsFill_has_self (a : Dict) (kd : String × JVal) :
    alistHas (vsFill a kd) kd.1 = true := by
  unfold vsFill
  split
  · assumption
  · exact alistHas_set_self _ _ _

theorem vsCoerceSI_has_mono (a : Dict) (key k : String)
    (h : alistHas a k = true) : alistHas (vsCoerceSI a key) k = true := by
  unfold vsCoerceSI
  split
  · exact alistHas_set_mono _ _ _ _ h
  · exact h

theorem vsCoerceList_has_mono (a : Dict) (key k : String)
    (h : alistHas a k = true) : alistHas (vsCoerceList a key) k = true := by
  unfold vsCoerceList
  split
  · exact alistHas_set_mono _ _ _ _ h
  · exact h

theorem vsFill_has_mono (a : Dict) (kd : String × JVal) (k : String)
    (h : alistHas a k = true) : alistHas (vsFill a kd) k = true := by
  unfold vsFill
  split
  · exact h
  · exact alistHas_set_mono _ _ _ _ h

theorem validateStep_has_self (a : Dict) (kd : String × JVal) :
    alistHas (validateStep a kd) kd.1 = true :=
  vsCoerceList_has_mono _ _ _ (vsCoerceSI_has_mono _ _ _ (vsFill_has_self a kd))

theorem validateStep_has_mono (a : Dict) (kd : String × JVal) (k : String)
    (h : alistHas a k = true) : alistHas (validateStep a kd) k = true :=
  vsCoerceList_has_mono _ _ _ (vsCoerceSI_has_mono _ _ _ (vsFill_has_mono a kd k h))

theorem foldl_validateStep_has (kds : List (String × JVal)) (a : Dict)
    (k : String) (h : alistHas a k = true) :
    alistHas (kds.foldl validateStep a) k = true := by
  induction kds generalizing a with
  | nil => simpa using h
  | cons hd t ih => exact ih _ (validateStep_has_mono a hd k h)

theorem foldl_validateStep_all (kds : List (String × JVal)) (a : Dict) :
    ∀ kd ∈ kds, alistHas (kds.foldl validateStep a) kd.1 = true := by
  induction kds generalizing a with
  | nil => intro kd h; cases h
  | cons hd t ih =>
    intro kd hkd
    rcases List.mem_cons.mp hkd with h | h
    · subst h
      exact foldl_validateStep_has t _ _ (validateStep_has_self a kd)
    · exact ih _ kd h

/-- The validated analysis always carries all eight required fields. -/
theorem validate_wellFormed (a : Dict) : wellFormed (validate_analysis a) = true := by
  unfold wellFormed
  rw [List.all_eq_true]
  intro kd hkd
  exact foldl_validateStep_all requiredDefaults a kd hkd

theorem wellFormed_alistSet (d : Dict) (k : String) (v : JVal)
    (h : wellFormed d = true) : wellFormed (alistSet d k v) = true := by
  unfold wellFormed at h ⊢
  rw [List.all_eq_true] at h ⊢
  intro kd hkd
  exact alistHas_set_mono _ _ _ _ (h kd hkd)

/-- The validation pass of the `extracted_text` key: the stored value is
the incoming one, defaulting to the empty string, never coerced. -/
theorem validateStep_extracted (a : Dict) :
    alistGet (validateStep a ("extracted_text", .str "")) "extracted_text"
      = some ((alistGet a "extracted_text").getD (.str "")) := by
  have h1 : (("extracted_text" : String) == "should_interrupt") = false := rfl
  have h2 : (("extracted_text" : String) == "issues") = false := rfl
  have h3 : (("extracted_text" : String) == "tags") = false := rfl
  unfold validateStep vsCoerceList vsCoerceSI vsFill
  simp only [h1, h2, h3, Bool.false_and, Bool.false_or, Bool.or_self,
    Bool.false_eq_true, if_false]
  by_cases h : alistHas a "extracted_text"
  · rw [if_pos h]
    obtain ⟨v, hv⟩ := Option.isSome_iff_exists.mp (by simpa [alistHas] using h)
    rw [hv]
    rfl
  · have hnone : alistGet a "extracted_text" = none := by
      cases hget : alistGet a "extracted_text" with
      | none => rfl
      | some v => exact absurd (by simp [alistHas, hget]) h
    rw [if_neg h, alistGet_set_self, hnone]
    rfl

/-- Through the whole validation fold, `extracted_text` keeps the
incoming value, defaulting to the empty string. -/
theorem validate_get_extracted (a : Dict) :
    alistGet (validate_analysis a) "extracted_text"
      = some ((alistGet a "extracted_text").getD (.str "")) := by
  unfold validate_analysis requiredDefaults
  simp only [List.foldl_cons, List.foldl_nil]
  rw [validateStep_extracted]
  repeat rw [validateStep_get_other _ _ _ (by decide)]

/-- A `validateStep` on a dict that already holds the key with a
well-typed value is the identity. -/
theorem validateStep_id (a : Dict) (kd : String × JVal)
    (hhas : alistHas a kd.1 = true)
    (hsi : (kd.1 == "should_interrupt") = true →
      isBool (alistGetD a kd.1 .null) = true)
    (hlist : ((kd.1 == "issues") || (kd.1 == "tags")) = true →
      isList (alistGetD a kd.1 .null) = true) :
    validateStep a kd = a := by
  unfold validateStep vsCoerceList vsCoerceSI vsFill
  rw [if_pos hhas]
  have c1 : (kd.1 == "should_interrupt" && !isBool (alistGetD a kd.1 .null)) = false := by
    cases h1 : (kd.1 == "should_interrupt") with
    | false => simp
    | true => simp [hsi h1]
  have c2 : (((kd.1 == "issues") || (kd.1 == "tags"))
      && !isList (alistGetD a kd.1 .null)) = false := by
    cases h1 : ((kd.1 == "issues") || (kd.1 == "tags")) with
    | false => simp
    | true => simp [hlist h1]
  simp only [c1, Bool.false_eq_true, if_false, c2]

/-- Validating a dict of exactly the nine default-analysis fields (with a
list-shaped `issues` and `tags` and a boolean `should_interrupt`) changes
nothing. -/
theorem validate_fixed (v1 v2 v3 v4 v5 v6 v7 v8 v9 : JVal)
    (h3 : isList v3 = true) (h4 : isBool v4 = true) (h6 : isList v6 = true) :
    validate_analysis (nineDict v1 v2 v3 v4 v5 v6 v7 v8 v9)
      = nineDict v1 v2 v3 v4 v5 v6 v7 v8 v9 := by
  have s1 := validateStep_id (nineDict v1 v2 v3 v4 v5 v6 v7 v8 v9)
    ("activity", .str "Unknown activity") rfl
    (fun hh => absurd hh (by decide)) (fun hh => absurd hh (by decide))
  have s2 := validateStep_id (nineDict v1 v2 v3 v4 v5 v6 v7 v8 v9)
    ("intent", JVal.str "Unknown") rfl
    (fun hh => absurd hh (by decide)) (fun hh => absurd hh (by decide))
  have s3 := validateStep_id (nineDict v1 v2 v3 v4 v5 v6 v7 v8 v9)
    ("issues", JVal.arr []) rfl
    (fun hh => absurd hh (by decide)) (fun _ => h3)
  have s4 := validateStep_id (nineDict v1 v2 v3 v4 v5 v6 v7 v8 v9)
    ("should_interrupt", JVal.bool false) rfl
    (fun _ => h4) (fun hh => absurd hh (by decide))
  have s5 := validateStep_id (nineDict v1 v2 v3 v4 v5 v6 v7 v8 v9)
    ("interrupt_message", JVal.str "") rfl
    (fun hh => absurd hh (by decide)) (fun hh => absurd hh (by decide))
  have s6 := validateStep_id (nineDict v1 v2 v3 v4 v5 v6 v7 v8 v9)
    ("tags", JVal.arr []) rfl
    (fun hh => absurd hh (by decide)) (fun _ => h6)
  have s7 := validateStep_id (nineDict v1 v2 v3 v4 v5 v6 v7 v8 v9)
    ("priority", JVal.str "low") rfl
    (fun hh => absurd hh (by decide)) (fun hh => absurd hh (by decide))
  have s8 := validateStep_id (nineDict v1 v2 v3 v4 v5 v6 v7 v8 v9)
    ("extracted_text", JVal.str "") rfl
    (fun hh => absurd hh (by decide)) (fun hh => absurd hh (by decide))
  show requiredDefaults.foldl validateStep (nineDict v1 v2 v3 v4 v5 v6 v7 v8 v9)
    = nineDict v1 v2 v3 v4 v5 v6 v7 v8 v9
  simp only [requiredDefaults, List.foldl_cons, List.foldl_nil,
    s1, s2, s3, s4, s5, s6, s7, s8]

/-- Validating the default analysis changes nothing: every field is
present with a well-typed value. -/
theorem validate_default (app : String) (err : Option String) :
    validate_analysis (default_analysis app err) = default_analysis app err := by
  by_cases h : app = "Unknown"
  · simp only [default_analysis, if_pos h]
    exact validate_fixed _ _ _ _ _ _ _ _ _ rfl rfl rfl
  · simp only [default_analysis, if_neg h]
    exact validate_fixed _ _ _ _ _ _ _ _ _ rfl rfl rfl

/-- On every inference failure — exception or response without parsable
JSON — `analyze_capture` returns the default analysis without raising,
and the default is well-formed, low-priority, non-interrupting, and
carries the error field. -/
theorem analyze_capture_failure_defaults (redact : String → String)
    (capture : Capture) (msg : String) :
    analyze_capture redact capture (.throws msg)
      = .ok (default_analysis capture.app_name (some msg))
    ∧ analyze_capture redact capture .noJson
      = .ok (default_analysis capture.app_name none)
    ∧ ∀ err : Option String,
      wellFormed (default_analysis capture.app_name err) = true
      ∧ alistGet (default_analysis capture.app_name err) "priority"
          = some (.str "low")
      ∧ alistGet (default_analysis capture.app_name err) "should_interrupt"
          = some (.bool false)
      ∧ alistHas (default_analysis capture.app_name err) "error" = true := by
  refine ⟨rfl, ?_, fun err => ⟨rfl, rfl, rfl, rfl⟩⟩
  have hscreen : analyze_screen capture.app_name .noJson
      = default_analysis capture.app_name none := validate_default _ _
  simp only [analyze_capture, hscreen]
  rfl

/-- On a parsed JSON response whose `extracted_text` is a string or
falsy, `analyze_capture` returns a well-formed result without raising. -/
theorem analyze_capture_json_ok (redact : String → String) (capture : Capture)
    (obj : Dict) (h : extractOk obj = true) :
    ∃ d, analyze_capture redact capture (.json obj) = .ok d
      ∧ wellFormed d = true := by
  have hwf := validate_wellFormed obj
  have hget := validate_get_extracted obj
  simp only [analyze_capture, analyze_screen]
  rw [hget]
  unfold extractOk at h
  cases hv : alistGet obj "extracted_text" with
  | none => exact ⟨_, rfl, hwf⟩
  | some u =>
    rw [hv] at h
    have h2 : (!pyTruthy u || isStrJ u) = true := h
    simp only [Option.getD]
    cases ht : pyTruthy u with
    | false =>
      simp only [ht, Bool.false_eq_true, if_false]
      exact ⟨_, rfl, hwf⟩
    | true =>
      rw [ht] at h2
      simp only [Bool.not_true, Bool.false_or, isStrJ] at h2
      cases u with
      | str ss =>
        simp only [if_true]
        exact ⟨_, rfl, wellFormed_alistSet _ _ _ hwf⟩
      | null => cases h2
      | bool b => cases h2
      | int n => cases h2
      | arr l => cases h2
      | obj l => cases h2

/-- C1: a parsable JSON response whose `extracted_text` is a truthy
non-string (here the number 5) makes `analyze_capture` raise `TypeError`
from the redaction step, instead of degrading to the default analysis:
`_validate_analysis` never repairs `extracted_text`, and
`redact_sensitive_data` applies `re.sub` to the value outside any
`try`. -/
theorem C1_redaction_type_error :
    analyze_capture (fun s => s) ⟨"App", "Window"⟩
      (.json [("extracted_text", .int 5)]) = .error .typeError := rfl

/-! ### C4-C6 support: the de-duplicated collection and the funnel -/

theorem MapInv_nil : MapInv [] :=
  ⟨fun p hp => absurd hp (List.not_mem_nil p), List.nodup_nil⟩

theorem pyInsert_inv (m : List (Nat × StoredActivity)) (a : StoredActivity)
    (h : MapInv m) : MapInv (pyInsert m a) :=
  ⟨alistSet_values_pred _ _ _ _ h.1 rfl, keys_alistSet_nodup _ _ _ h.2⟩

theorem foldl_inv_preserve {β : Type _}
    (f : List (Nat × StoredActivity) → β → List (Nat × StoredActivity))
    (hf : ∀ m b, MapInv m → MapInv (f m b)) :
    ∀ (l : List β) (m), MapInv m → MapInv (l.foldl f m) := by
  intro l
  induction l with
  | nil => intro m h; exact h
  | cons b t ih => intro m h; exact ih _ (hf m b h)

theorem hydrateStep_inv (db : List StoredActivity)
    (m : List (Nat × StoredActivity)) (aid : Nat) (h : MapInv m) :
    MapInv (hydrateStep db m aid) := by
  unfold hydrateStep
  cases hs : search_activities db (some (toString aid)) 1 with
  | nil => exact h
  | cons a rest => exact pyInsert_inv m a h

theorem vectorStage_inv (db : List StoredActivity)
    (vec : Except Unit (List String)) : MapInv (vectorStage db vec) :=
  foldl_inv_preserve _ (hydrateStep_inv db) _ _ MapInv_nil

theorem keywordStage_inv (db : List StoredActivity) (kws : List String)
    (m : List (Nat × StoredActivity)) (h : MapInv m) :
    MapInv (keywordStage db kws m) :=
  foldl_inv_preserve _
    (fun m _ hm => foldl_inv_preserve _ pyInsert_inv _ m hm) kws m h

theorem recencyStage_inv (db : List StoredActivity)
    (m : List (Nat × StoredActivity)) (h : MapInv m) :
    MapInv (recencyStage db m) :=
  foldl_inv_preserve _ pyInsert_inv _ m h

/-- The returned list always arises as the final sort of a collection
satisfying the dict invariant. -/
theorem run_collection (db : List StoredActivity)
    (vec : Except Unit (List String)) (q : String) :
    ∃ m, MapInv m ∧ (semantic_search_run db vec q).result = finalSort m := by
  have h1 := vectorStage_inv db vec
  by_cases ha : (vectorStage db vec).length < 5
  · by_cases hb : (keywordStage db (keywordsOf q) (vectorStage db vec)).isEmpty = true
    · exact ⟨recencyStage db (keywordStage db (keywordsOf q) (vectorStage db vec)),
        recencyStage_inv db _ (keywordStage_inv db _ _ h1),
        by simp [semantic_search_run, ha, hb]⟩
    · exact ⟨keywordStage db (keywordsOf q) (vectorStage db vec),
        keywordStage_inv db _ _ h1,
        by simp [semantic_search_run, ha, hb]⟩
  · by_cases hc : (vectorStage db vec).isEmpty = true
    · exact ⟨recencyStage db (vectorStage db vec), recencyStage_inv db _ h1,
        by simp [semantic_search_run, ha, hc]⟩
    · exact ⟨vectorStage db vec, h1, by simp [semantic_search_run, ha, hc]⟩

/-- C6: every record id occurs exactly once in the list
`semantic_search` returns, whichever stages surfaced it, and the list is
sorted descending by timestamp. -/
theorem C6_dedup_sorted (db : List StoredActivity)
    (vec : Except Unit (List String)) (q : String) :
    ((semantic_search db vec q).map fun a => a.id).Nodup
    ∧ List.Sorted tsDescLE (semantic_search db vec q) := by
  obtain ⟨m, hm, hr⟩ := run_collection db vec q
  unfold semantic_search
  rw [hr]
  constructor
  · have hperm : List.Perm (finalSort m) (m.map Prod.snd) :=
      List.perm_insertionSort tsDescLE (m.map Prod.snd)
    refine ((hperm.map fun a => a.id).nodup_iff).mpr ?_
    rw [List.map_map]
    have heq : m.map ((fun a => a.id) ∘ Prod.snd) = m.map Prod.fst :=
      List.map_congr_left fun p hp => (hm.1 p hp).symm
    rw [heq]
    exact hm.2
  · exact List.sorted_insertionSort tsDescLE (m.map Prod.snd)

/-- Every entry of the hydration fold either predates it or originates
from the substring search of one of the folded ids. -/
theorem hydrate_foldl_origin (db : List StoredActivity) :
    ∀ (ids : List Nat) (m : List (Nat × StoredActivity)) (p : Nat × StoredActivity),
    p ∈ ids.foldl (hydrateStep db) m →
    p ∈ m ∨ ∃ aid ∈ ids, p.2 ∈ search_activities db (some (toString aid)) 1 := by
  intro ids
  induction ids with
  | nil => intro m p hp; exact Or.inl hp
  | cons aid t ih =>
    intro m p hp
    simp only [List.foldl_cons] at hp
    rcases ih _ p hp with h1 | ⟨aid2, ha2, hm2⟩
    · unfold hydrateStep at h1
      cases hs : search_activities db (some (toString aid)) 1 with
      | nil => rw [hs] at h1; exact Or.inl h1
      | cons a rest =>
        rw [hs] at h1
        rcases mem_alistSet _ _ _ _ h1 with he | hmm
        · subst he
          right
          exact ⟨aid, List.mem_cons_self _ _, by rw [hs]; exact List.mem_cons_self a rest⟩
        · exact Or.inl hmm
    · exact Or.inr ⟨aid2, List.mem_cons_of_mem _ ha2, hm2⟩

theorem hydrate_foldl_keys_mono (db : List StoredActivity) :
    ∀ (ids : List Nat) (m : List (Nat × StoredActivity)) (k : Nat),
    k ∈ m.map Prod.fst → k ∈ (ids.foldl (hydrateStep db) m).map Prod.fst := by
  intro ids
  induction ids with
  | nil => intro m k h; exact h
  | cons aid t ih =>
    intro m k h
    simp only [List.foldl_cons]
    apply ih
    unfold hydrateStep
    cases hs : search_activities db (some (toString aid)) 1 with
    | nil => exact h
    | cons a rest => exact mem_keys_alistSet_mono _ _ _ _ h

/-- Every folded id whose substring search hits stores its first hit's
own id among the collection keys. -/
theorem hydrate_foldl_covers (db : List StoredActivity) :
    ∀ (ids : List Nat) (m : List (Nat × StoredActivity)) (aid : Nat),
    aid ∈ ids →
    ∀ (a : StoredActivity) (rest : List StoredActivity),
    search_activities db (some (toString aid)) 1 = a :: rest →
    a.id ∈ (ids.foldl (hydrateStep db) m).map Prod.fst := by
  intro ids
  induction ids with
  | nil => intro m aid h; cases h
  | cons aid0 t ih =>
    intro m aid haid a rest hs
    simp only [List.foldl_cons]
    rcases List.mem_cons.mp haid with he | hmem
    · subst he
      apply hydrate_foldl_keys_mono
      unfold hydrateStep
      rw [hs]
      exact mem_keys_alistSet_self _ _ _
    · exact ih _ aid hmem a rest hs

/-- C4 (amended): the hydration the vector stage actually performs:
each collection entry is keyed by its own record id, every entry is the
head of a limit-1 substring search for the decimal string of one of the
first ten parsed ids, and every such first hit gets keyed into the
collection. -/
theorem C4_substring_hydration (db : List StoredActivity)
    (vec : Except Unit (List String)) :
    (∀ p ∈ vectorStage db vec, p.1 = p.2.id)
    ∧ (∀ p ∈ vectorStage db vec, ∃ aid ∈ (vectorIds vec).take 10,
        p.2 ∈ search_activities db (some (toString aid)) 1)
    ∧ (∀ aid ∈ (vectorIds vec).take 10, ∀ (a : StoredActivity) rest,
        search_activities db (some (toString aid)) 1 = a :: rest →
        a.id ∈ (vectorStage db vec).map Prod.fst) := by
  refine ⟨fun p hp => (vectorStage_inv db vec).1 p hp, fun p hp => ?_, ?_⟩
  · rcases hydrate_foldl_origin db ((vectorIds vec).take 10) [] p hp with h | h
    · exact absurd h (List.not_mem_nil p)
    · exact h
  · intro aid ha a rest hs
    exact hydrate_foldl_covers db _ [] aid ha a rest hs

/-- C4 counterexample: asked to hydrate the vector hit with id 42, the
vector stage stores record 7 (whose window title contains the substring
"42"), not record 42, although record 42 exists and is what a fetch by
id returns. -/
theorem C4_counterexample :
    vectorStage cxDb (.ok ["42"]) = [(7, cxA)]
    ∧ specHydrateById cxDb 42 = some cxB
    ∧ cxB.id = 42
    ∧ cxA.id ≠ 42 :=
  ⟨rfl, rfl, rfl, by decide⟩

/-- Witness for C4 at the counterexample database: the one entry is
keyed by its own id 7, originates from the substring search for id 42,
and that search's first hit is keyed into the collection. -/
theorem C4_substring_hydration_witness :
    (7, cxA).1 = (7, cxA).2.id
    ∧ (∃ aid ∈ (vectorIds (.ok ["42"])).take 10,
        (7, cxA).2 ∈ search_activities cxDb (some (toString aid)) 1)
    ∧ cxA.id ∈ (vectorStage cxDb (.ok ["42"])).map Prod.fst := by
  have hm : (7, cxA) ∈ vectorStage cxDb (.ok ["42"]) := by
    show (7, cxA) ∈ [(7, cxA)]
    exact List.mem_singleton_self _
  refine ⟨(C4_substring_hydration cxDb (.ok ["42"])).1 _ hm,
    (C4_substring_hydration cxDb (.ok ["42"])).2.1 _ hm,
    (C4_substring_hydration cxDb (.ok ["42"])).2.2 42 ?_ cxA [] ?_⟩
  · show 42 ∈ [42]
    exact List.mem_singleton_self _
  · rfl

/-! ### C5 support: the recency stage and non-emptiness -/

/-- Folding fresh, pairwise-distinct records into the collection appends
them in order. -/
theorem foldl_pyInsert_fresh :
    ∀ (l : List StoredActivity) (m : List (Nat × StoredActivity)),
    (l.map fun a => a.id).Nodup → (∀ a ∈ l, a.id ∉ m.map Prod.fst) →
    l.foldl pyInsert m = m ++ l.map fun a => (a.id, a) := by
  intro l
  induction l with
  | nil => intro m _ _; simp
  | cons a t ih =>
    intro m hnd hdisj
    simp only [List.foldl_cons, List.map_cons]
    rw [show pyInsert m a = m ++ [(a.id, a)] from
      alistSet_append_of_fresh _ _ _ (hdisj a (List.mem_cons_self _ _))]
    rw [ih (m ++ [(a.id, a)]) (List.Nodup.of_cons hnd) ?_]
    · simp
    · intro b hb
      have hb1 : b.id ∉ m.map Prod.fst := hdisj b (List.mem_cons_of_mem _ hb)
      have hb2 : b.id ≠ a.id := by
        intro he
        have hbm : b.id ∈ t.map fun a => a.id :=
          List.mem_map_of_mem (fun a => a.id) hb
        rw [he] at hbm
        exact (List.nodup_cons.mp hnd).1 hbm
      simp [hb1, hb2]

/-- Sorting is the identity on an already-sorted list (the 10 most
recent rows come back already ordered descending). -/
theorem sortTsDesc_take_recent (db : List StoredActivity) :
    sortTsDesc ((sortTsDesc db).take 10) = (sortTsDesc db).take 10 :=
  List.Sorted.insertionSort_eq
    (List.Pairwise.sublist (List.take_sublist _ _)
      (List.sorted_insertionSort tsDescLE db))

/-- When the collection is empty and the table's ids are distinct, the
recency stage makes `semantic_search` return exactly the 10 most recent
rows. -/
theorem recency_from_empty (db : List StoredActivity)
    (hnod : (db.map fun a => a.id).Nodup) :
    finalSort (recencyStage db []) = (sortTsDesc db).take 10 := by
  have hperm : List.Perm (sortTsDesc db) db := List.perm_insertionSort tsDescLE db
  have h2 : ((sortTsDesc db).map fun a => a.id).Nodup :=
    ((hperm.map fun a => a.id).nodup_iff).mpr hnod
  have hrnod : ((get_recent_activities db 10).map fun a => a.id).Nodup := by
    unfold get_recent_activities
    exact List.Nodup.sublist (List.Sublist.map _ (List.take_sublist _ _)) h2
  unfold recencyStage
  rw [foldl_pyInsert_fresh _ [] hrnod (fun a _ => List.not_mem_nil a.id)]
  rw [List.nil_append]
  unfold finalSort
  rw [List.map_map]
  have hid : (get_recent_activities db 10).map (Prod.snd ∘ fun a => (a.id, a))
      = get_recent_activities db 10 :=
    calc (get_recent_activities db 10).map (Prod.snd ∘ fun a => (a.id, a))
        = (get_recent_activities db 10).map id :=
          List.map_congr_left fun a _ => rfl
      _ = get_recent_activities db 10 := List.map_id _
  rw [hid]
  exact sortTsDesc_take_recent db

theorem pyInsert_ne_nil (m : List (Nat × StoredActivity)) (a : StoredActivity) :
    pyInsert m a ≠ [] :=
  alistSet_ne_nil m a.id a

theorem foldl_pyInsert_ne_nil :
    ∀ (l : List StoredActivity) (m : List (Nat × StoredActivity)),
    (m ≠ [] ∨ l ≠ []) → l.foldl pyInsert m ≠ [] := by
  intro l
  induction l with
  | nil =>
    intro m h
    rcases h with h | h
    · simpa using h
    · exact absurd rfl h
  | cons a t ih =>
    intro m _
    simp only [List.foldl_cons]
    exact ih (pyInsert m a) (Or.inl (pyInsert_ne_nil m a))

theorem finalSort_ne_nil (m : List (Nat × StoredActivity)) (h : m ≠ []) :
    finalSort m ≠ [] := by
  unfold finalSort sortTsDesc
  intro he
  have hperm : List.Perm (List.insertionSort tsDescLE (m.map Prod.snd))
      (m.map Prod.snd) := List.perm_insertionSort tsDescLE (m.map Prod.snd)
  rw [he] at hperm
  exact h (List.map_eq_nil_iff.mp (hperm.nil_eq).symm)

theorem sortTsDesc_ne_nil (db : List StoredActivity) (h : db ≠ []) :
    sortTsDesc db ≠ [] := by
  intro hz
  have hperm : List.Perm (sortTsDesc db) db := List.perm_insertionSort tsDescLE db
  rw [hz] at hperm
  exact h hperm.nil_eq.symm

theorem recent_ne_nil (db : List StoredActivity) (h : db ≠ []) :
    get_recent_activities db 10 ≠ [] := by
  unfold get_recent_activities
  cases hcase : sortTsDesc db with
  | nil => exact absurd hcase (sortTsDesc_ne_nil db h)
  | cons x xs => simp

theorem recencyStage_ne_nil (db : List StoredActivity)
    (m : List (Nat × StoredActivity)) (h : db ≠ []) :
    recencyStage db m ≠ [] :=
  foldl_pyInsert_ne_nil _ m (Or.inr (recent_ne_nil db h))

/-- C5 (amended): the keyword stage runs exactly when the vector stage
gathered fewer than 5 unique records and then uses exactly the query's
whitespace-separated words longer than 3 characters; when it does not
run the collection is untouched; the recency stage runs exactly when the
collection is still empty, and then (for a table with distinct ids)
`semantic_search` returns exactly the 10 most recent rows; the final
result is non-empty whenever the table holds at least one row. -/
theorem C5_funnel_stages (db : List StoredActivity)
    (vec : Except Unit (List String)) (q : String) :
    ((semantic_search_run db vec q).keywordRan = true
      ↔ (semantic_search_run db vec q).afterVector.length < 5)
    ∧ ((semantic_search_run db vec q).keywordRan = true →
        (semantic_search_run db vec q).keywords = keywordsOf q)
    ∧ ((semantic_search_run db vec q).keywordRan = false →
        (semantic_search_run db vec q).afterKeyword
          = (semantic_search_run db vec q).afterVector)
    ∧ ((semantic_search_run db vec q).recencyRan = true
      ↔ (semantic_search_run db vec q).afterKeyword = [])
    ∧ ((semantic_search_run db vec q).afterKeyword = [] →
        (db.map fun a => a.id).Nodup →
        (semantic_search_run db vec q).result = (sortTsDesc db).take 10)
    ∧ (db ≠ [] → (semantic_search_run db vec q).result ≠ []) := by
  by_cases ha : (vectorStage db vec).length < 5
  · by_cases hb : (keywordStage db (keywordsOf q) (vectorStage db vec)).isEmpty = true
    · have he2 : keywordStage db (keywordsOf q) (vectorStage db vec) = [] := by
        cases hcase : keywordStage db (keywordsOf q) (vectorStage db vec) with
        | nil => rfl
        | cons x xs => rw [hcase] at hb; simp at hb
      have hrun : semantic_search_run db vec q
          = ⟨vectorStage db vec, true, keywordsOf q,
             keywordStage db (keywordsOf q) (vectorStage db vec), true,
             finalSort (recencyStage db
               (keywordStage db (keywordsOf q) (vectorStage db vec)))⟩ := by
        simp [semantic_search_run, ha, hb]
      rw [hrun]
      refine ⟨⟨fun _ => ha, fun _ => rfl⟩, fun _ => rfl,
        fun h => Bool.noConfusion h, ⟨fun _ => he2, fun _ => rfl⟩,
        fun _ hnod => ?_, fun hdb => ?_⟩
      · show finalSort (recencyStage db
          (keywordStage db (keywordsOf q) (vectorStage db vec)))
          = (sortTsDesc db).take 10
        rw [he2]
        exact recency_from_empty db hnod
      · show finalSort (recencyStage db
          (keywordStage db (keywordsOf q) (vectorStage db vec))) ≠ []
        exact finalSort_ne_nil _ (recencyStage_ne_nil db _ hdb)
    · have hne : keywordStage db (keywordsOf q) (vectorStage db vec) ≠ [] := by
        intro hz
        exact hb (by rw [hz]; rfl)
      have hrun : semantic_search_run db vec q
          = ⟨vectorStage db vec, true, keywordsOf q,
             keywordStage db (keywordsOf q) (vectorStage db vec), false,
             finalSort (keywordStage db (keywordsOf q) (vectorStage db vec))⟩ := by
        simp [semantic_search_run, ha, hb]
      rw [hrun]
      refine ⟨⟨fun _ => ha, fun _ => rfl⟩, fun _ => rfl,
        fun h => Bool.noConfusion h,
        ⟨fun h => Bool.noConfusion h, fun h => absurd h hne⟩,
        fun h _ => absurd h hne, fun _ => finalSort_ne_nil _ hne⟩
  · by_cases hc : (vectorStage db vec).isEmpty = true
    · exfalso
      cases hm : vectorStage db vec with
      | nil => rw [hm] at ha; exact ha (by decide)
      | cons x xs => rw [hm] at hc; simp at hc
    · have hne : vectorStage db vec ≠ [] := by
        intro hz
        exact hc (by rw [hz]; rfl)
      have hrun : semantic_search_run db vec q
          = ⟨vectorStage db vec, false, [], vectorStage db vec, false,
             finalSort (vectorStage db vec)⟩ := by
        simp [semantic_search_run, ha, hc]
      rw [hrun]
      refine ⟨⟨fun h => Bool.noConfusion h, fun h => absurd h ha⟩,
        fun h => Bool.noConfusion h, fun _ => rfl,
        ⟨fun h => Bool.noConfusion h, fun h => absurd h hne⟩,
        fun h _ => absurd h hne, fun _ => finalSort_ne_nil _ hne⟩

/-- C5 counterexample: on an empty table (vector stage failing, keyword
hits empty) the recency stage returns an empty list, so the claimed
unconditional non-emptiness of the final result is false. -/
theorem C5_counterexample :
    semantic_search [] (.error ()) "hello world" = [] := rfl

/-- Witness for C5 at a one-row table with a failing vector search and a
no-hit query: the keyword stage ran for the under-filled collection, the
keywords are the long words of the query, the result is exactly the most
recent rows, and it is non-empty. -/
theorem C5_funnel_stages_witness :
    ((semantic_search_run [cxA] (.error ()) "zzzzz").keywordRan = true
      ↔ (semantic_search_run [cxA] (.error ()) "zzzzz").afterVector.length < 5)
    ∧ (semantic_search_run [cxA] (.error ()) "zzzzz").keywords = keywordsOf "zzzzz"
    ∧ (semantic_search_run [cxA] (.error ()) "zzzzz").result
        = (sortTsDesc [cxA]).take 10
    ∧ (semantic_search_run [cxA] (.error ()) "zzzzz").result ≠ [] := by
  refine ⟨(C5_funnel_stages [cxA] (.error ()) "zzzzz").1,
    (C5_funnel_stages [cxA] (.error ()) "zzzzz").2.1 rfl,
    (C5_funnel_stages [cxA] (.error ()) "zzzzz").2.2.2.2.1 rfl (by decide),
    (C5_funnel_stages [cxA] (.error ()) "zzzzz").2.2.2.2.2 (List.cons_ne_nil _ _)⟩

end Nexus
